import Mathlib

/-!
Shallow embedding of the WebSocket connection core in
`src/cpp/HybridWebSocket.cpp` / `src/cpp/HybridWebSocket.hpp`
(react-native-real-time-nitro), together with proofs about it.

Strings are modelled as `List Char`, byte buffers as `List Nat`,
the 64-bit unsigned atomic counters with explicit `% 2^64` arithmetic.
-/

namespace RealTimeNitro

/-- Connection states, from `enum class State` in HybridWebSocket.hpp
(CONNECTING = 0, OPEN = 1, CLOSING = 2, CLOSED = 3). -/
inductive State where
  | CONNECTING
  | OPEN
  | CLOSING
  | CLOSED
deriving DecidableEq, Repr

/-- The numeric value of a state, as `getState()` returns it
(`static_cast<double>(_state.load())`). -/
def State.code : State → Nat
  | .CONNECTING => 0
  | .OPEN => 1
  | .CLOSING => 2
  | .CLOSED => 3

-- ============================================================
-- URL parsing (HybridWebSocket::parseUrl, HybridWebSocket.cpp:39-92)
-- ============================================================

/-- `std::isspace` in the default C locale: the six whitespace characters. -/
def isCppSpace (c : Char) : Bool :=
  c == ' ' || c == '\t' || c == '\n' || c == '\x0b' || c == '\x0c' || c == '\r'

/-- Value of a base-10 digit string (most significant first). -/
def digitsToNat (ds : List Char) : Nat :=
  ds.foldl (fun acc c => acc * 10 + (c.toNat - ('0').toNat)) 0

/-- Model of `std::stoi` (base 10, `int` being 32 bits): skip leading
whitespace, read an optional sign, then the longest run of decimal digits.
Returns `none` where `std::stoi` throws: no digits at all
(`std::invalid_argument`) or a value outside `int` range
(`std::out_of_range`). Trailing non-digit characters are ignored. -/
def stoi (s : List Char) : Option Int :=
  let t := s.dropWhile isCppSpace
  let sign : Int := if t.head? = some '-' then -1 else 1
  let t2 := if t.head? = some '-' ∨ t.head? = some '+' then t.tail else t
  let ds := t2.takeWhile Char.isDigit
  if ds = [] then none
  else
    let v : Int := sign * (digitsToNat ds : Int)
    if v < -(2 ^ 31 : Int) ∨ (2 ^ 31 : Int) ≤ v then none else some v

/-- A character that does not end the host part: `parseUrl` scans the host
up to the first of `':'`, `'/'`, `'?'` (`url.find_first_of(":/?", pos)`). -/
def notHostDelim (c : Char) : Bool :=
  !(c == ':' || c == '/' || c == '?')

/-- Result of `parseUrl`: the fields `_useSsl`, `_host`, `_port`, `_path`
that a successful parse assigns. -/
structure ParsedUrl where
  useSsl : Bool
  host : List Char
  port : Int
  path : List Char
deriving DecidableEq, Repr

/-- The scheme marker `parseUrl` strips: `"wss://"` or `"ws://"`. -/
def schemeChars : Bool → List Char
  | true => ['w', 's', 's', ':', '/', '/']
  | false => ['w', 's', ':', '/', '/']

/-- Default port: 443 when secure, 80 when plain
(`_port = _useSsl ? 443 : 80`, HybridWebSocket.cpp:64). -/
def defaultPort (ssl : Bool) : Int := if ssl then 443 else 80

/-- Steps 2-4 of `HybridWebSocket::parseUrl` (HybridWebSocket.cpp:52-91),
after the scheme marker has been stripped:
- host is everything up to the first `':'`, `'/'` or `'?'`
  (`url.find_first_of(":/?", pos)`); an empty host fails;
- when the character ending the host exists and is `':'`
  (`hostEnd < url.length() && url[hostEnd] == ':'`), the port string runs
  up to the next `'/'` (or the end) and goes through `std::stoi`, whose
  failure fails the whole parse;
- the path is the remainder from its leading `'/'` when the remainder
  starts with one (`hostEnd < url.length() && url[hostEnd] == '/'`),
  else `"/"`. -/
def parseAfterScheme (ssl : Bool) (rest : List Char) : Option ParsedUrl :=
  let host := rest.takeWhile notHostDelim
  let afterHost := rest.dropWhile notHostDelim
  if host = [] then none
  else if afterHost.head? = some ':' then
    let r := afterHost.tail
    let portStr := r.takeWhile (fun c => !(c == '/'))
    let afterPort := r.dropWhile (fun c => !(c == '/'))
    match stoi portStr with
    | none => none
    | some p =>
      if afterPort.head? = some '/' then some ⟨ssl, host, p, afterPort⟩
      else some ⟨ssl, host, p, ['/']⟩
  else if afterHost.head? = some '/' then some ⟨ssl, host, defaultPort ssl, afterHost⟩
  else some ⟨ssl, host, defaultPort ssl, ['/']⟩

/-- Model of `HybridWebSocket::parseUrl` (HybridWebSocket.cpp:39-92): the
scheme check (`url.find("wss://") == 0`, then `url.find("ws://") == 0`,
any other start failing), then host/port/path extraction on the rest. -/
def parseUrl (url : List Char) : Option ParsedUrl :=
  if url.take 6 = schemeChars true then parseAfterScheme true (url.drop 6)
  else if url.take 5 = schemeChars false then parseAfterScheme false (url.drop 5)
  else none

-- ============================================================
-- Connection state (fields of HybridWebSocket used by the core)
-- ============================================================

/-- `struct QueuedMessage` (HybridWebSocket.hpp:155-158): payload bytes and
the binary flag. -/
structure QueuedMessage where
  data : List Nat
  isBinary : Bool
deriving DecidableEq, Repr

/-- 2^64, the modulus of the unsigned 64-bit atomic counters. -/
def U64 : Nat := 2 ^ 64

/-- `fetch_add` on an unsigned 64-bit atomic. -/
def addU64 (a b : Nat) : Nat := (a + b) % U64

/-- `fetch_sub` on an unsigned 64-bit atomic (wraps below zero). -/
def subU64 (a b : Nat) : Nat := (a + (U64 - b % U64)) % U64

/-- The mutable fields of a `HybridWebSocket` that the connection core reads
and writes. Pointers (`_context`, `_wsi`) are modelled by whether they are
non-null; the five handler slots by whether a handler is set
(`_onOpen.has_value()` etc.); `_queueBytes` — used via `.load`, `.fetch_add`,
`.fetch_sub`, `.store` though its declaration is not in the headers shipped
here — as an unsigned 64-bit atomic. -/
structure WSState where
  state : State
  sendQueue : List QueuedMessage
  queueBytes : Nat
  messagesSent : Nat
  messagesReceived : Nat
  bytesSent : Nat
  bytesReceived : Nat
  pingLatencyMs : Int
  fragmentBuffer : List Nat
  fragmentIsBinary : Bool
  running : Bool
  context : Bool
  wsi : Bool
  onOpenSet : Bool
  onMessageSet : Bool
  onBinaryMessageSet : Bool
  onErrorSet : Bool
  onCloseSet : Bool
deriving DecidableEq, Repr

/-- Sum of the payload lengths of the queued messages — the quantity the
spec's queue-bytes invariant equates with `_queueBytes`. -/
def queuePayloadSum (q : List QueuedMessage) : Nat :=
  (q.map (fun m => m.data.length)).sum

/-- Errors thrown by `send` / `sendBinary` (`std::runtime_error` with the
messages "WebSocket is not open" and "Send queue full ..."). -/
inductive WSError where
  | NotOpen
  | QueueFull
deriving DecidableEq, Repr

-- ============================================================
-- send / sendBinary (HybridWebSocket.cpp:358-418)
-- ============================================================

/-- Model of `HybridWebSocket::send` (HybridWebSocket.cpp:358-386).
`MAX_QUEUE_SIZE` and `MAX_QUEUE_BYTES` are referenced by the source but not
defined in the files shipped here, so they are parameters.
Transcribed steps: throw NotOpen when `_state != OPEN`; under `_sendMutex`,
throw QueueFull when `_sendQueue.size() >= MAX_QUEUE_SIZE` or
`_queueBytes.load() >= MAX_QUEUE_BYTES`; else `_sendQueue.push(std::move(msg))`
and then `_queueBytes.fetch_add(msg.data.size())`. The `fetch_add` reads
`msg.data` AFTER `msg` was moved into the queue; a moved-from `std::vector`
is left empty by every mainstream standard library, so the counter gains 0. -/
def send (maxQueueSize maxQueueBytes : Nat) (s : WSState) (message : List Nat) :
    WSState × Option WSError :=
  if s.state ≠ State.OPEN then (s, some WSError.NotOpen)
  else
    let msg : QueuedMessage := ⟨message, false⟩
    if maxQueueSize ≤ s.sendQueue.length ∨ maxQueueBytes ≤ s.queueBytes then
      (s, some WSError.QueueFull)
    else
      let movedFromData : List Nat := []
      ({ s with sendQueue := s.sendQueue ++ [msg],
                queueBytes := addU64 s.queueBytes movedFromData.length }, none)

/-- Model of `HybridWebSocket::sendBinary` (HybridWebSocket.cpp:388-418) —
identical to `send` except the queued message is marked binary. It has the
same use-after-move on `msg.data.size()`. -/
def sendBinary (maxQueueSize maxQueueBytes : Nat) (s : WSState) (data : List Nat) :
    WSState × Option WSError :=
  if s.state ≠ State.OPEN then (s, some WSError.NotOpen)
  else
    let msg : QueuedMessage := ⟨data, true⟩
    if maxQueueSize ≤ s.sendQueue.length ∨ maxQueueBytes ≤ s.queueBytes then
      (s, some WSError.QueueFull)
    else
      let movedFromData : List Nat := []
      ({ s with sendQueue := s.sendQueue ++ [msg],
                queueBytes := addU64 s.queueBytes movedFromData.length }, none)

-- ============================================================
-- Service-loop batch drain (HybridWebSocket.cpp:293-351)
-- ============================================================

/-- `const int MAX_BATCH_SIZE = 64` (HybridWebSocket.cpp:304). -/
def MAX_BATCH_SIZE : Nat := 64

/-- `const size_t MAX_BATCH_BYTES = 256 * 1024` (HybridWebSocket.cpp:305). -/
def MAX_BATCH_BYTES : Nat := 256 * 1024

/-- The batch-drain while-loop of `serviceLoop` (HybridWebSocket.cpp:307-349).
`writeResult i` is the value `lws_write` returns for the i-th write attempt
of this drain (the transport engine is external). Arguments mirror the
C++ locals; the returned tuple is (queue, queueBytes, messagesSent,
bytesSent, messages fully written in order). A write result equal to the
message size pops the message, subtracts its bytes from `_queueBytes` and
adds them to the sent metrics; any other result leaves the message at the
front and breaks out of the batch. (`_bytesSent.fetch_add(msg.data.size())`
runs after the pop, through a reference to the popped slot; it is modelled
as still reading that message's size.) -/
def drainGo (writeResult : Nat → Int) (queue : List QueuedMessage)
    (queueBytes messagesSent bytesSent batchCount batchBytes : Nat) :
    List QueuedMessage × Nat × Nat × Nat × List QueuedMessage :=
  match queue with
  | [] => ([], queueBytes, messagesSent, bytesSent, [])
  | msg :: restQ =>
    if batchCount < MAX_BATCH_SIZE ∧ batchBytes < MAX_BATCH_BYTES then
      if writeResult batchCount = (msg.data.length : Int) then
        let r := drainGo writeResult restQ (subU64 queueBytes msg.data.length)
          (addU64 messagesSent 1) (addU64 bytesSent msg.data.length)
          (batchCount + 1) (batchBytes + msg.data.length)
        (r.1, r.2.1, r.2.2.1, r.2.2.2.1, msg :: r.2.2.2.2)
      else (msg :: restQ, queueBytes, messagesSent, bytesSent, [])
    else (msg :: restQ, queueBytes, messagesSent, bytesSent, [])

/-- One send-queue drain of a `serviceLoop` iteration
(HybridWebSocket.cpp:294-350): performed only when `_wsi` is non-null and
the state is OPEN (the try-lock is modelled as succeeding — the failure
branch merely skips the drain, like the guard being false). Returns the
updated state and the messages written, in order. -/
def serviceLoopDrain (writeResult : Nat → Int) (s : WSState) :
    WSState × List QueuedMessage :=
  if s.wsi ∧ s.state = State.OPEN then
    let r := drainGo writeResult s.sendQueue s.queueBytes s.messagesSent s.bytesSent 0 0
    ({ s with sendQueue := r.1, queueBytes := r.2.1,
              messagesSent := r.2.2.1, bytesSent := r.2.2.2.1 }, r.2.2.2.2)
  else (s, [])

-- ============================================================
-- Inbound data events and fragment reassembly
-- (LWS_CALLBACK_CLIENT_RECEIVE, HybridWebSocket.cpp:605-712)
-- ============================================================

/-- One inbound data event from the transport engine: the three frame flags
`lws_frame_is_binary`, `lws_is_first_fragment`, `lws_is_final_fragment`
plus the payload slice `(in, len)`. -/
structure DataEvent where
  isBinary : Bool
  isFirstFragment : Bool
  isFinalFragment : Bool
  bytes : List Nat
deriving DecidableEq, Repr

/-- An observable user-callback invocation made while handling inbound
data: `_onMessage(text)` or `_onBinaryMessage(buffer)`. -/
inductive Emit where
  | textMsg (payload : List Nat)
  | binaryMsg (payload : List Nat)
deriving DecidableEq, Repr

/-- Model of the `LWS_CALLBACK_CLIENT_RECEIVE` case of
`HybridWebSocket::websocketCallback` (HybridWebSocket.cpp:605-712).
Transcription: `_bytesReceived` grows by `len`; if the event is not both
first and final fragment, a first fragment clears `_fragmentBuffer` and
captures `_fragmentIsBinary` (the `reserve` call only touches capacity),
every such event appends its bytes, and a final fragment bumps
`_messagesReceived`, delivers the accumulated buffer to the callback chosen
by the captured flag, and empties the buffer; otherwise (single-frame
message) `_messagesReceived` is bumped and the event's own bytes go straight
to the callback chosen by the event's flag. Delivery happens when the
handler slot is set (the `try_lock` on an uncontended mutex succeeds). -/
def onReceive (s : WSState) (ev : DataEvent) : WSState × List Emit :=
  let s0 := { s with bytesReceived := addU64 s.bytesReceived ev.bytes.length }
  if !ev.isFirstFragment || !ev.isFinalFragment then
    let s1 := if ev.isFirstFragment then
        { s0 with fragmentBuffer := [], fragmentIsBinary := ev.isBinary }
      else s0
    let s2 := { s1 with fragmentBuffer := s1.fragmentBuffer ++ ev.bytes }
    if ev.isFinalFragment then
      let s3 := { s2 with messagesReceived := addU64 s2.messagesReceived 1 }
      let out : List Emit :=
        if s3.fragmentIsBinary then
          if s3.onBinaryMessageSet then [Emit.binaryMsg s3.fragmentBuffer] else []
        else
          if s3.onMessageSet then [Emit.textMsg s3.fragmentBuffer] else []
      ({ s3 with fragmentBuffer := [] }, out)
    else (s2, [])
  else
    let s1 := { s0 with messagesReceived := addU64 s0.messagesReceived 1 }
    if ev.isBinary then
      (s1, if s1.onBinaryMessageSet then [Emit.binaryMsg ev.bytes] else [])
    else
      (s1, if s1.onMessageSet then [Emit.textMsg ev.bytes] else [])

/-- Fold `onReceive` over a sequence of inbound events, collecting every
callback invocation in order (events arrive single-threaded on the service
loop thread). -/
def onReceiveSeq (s : WSState) (evs : List DataEvent) : WSState × List Emit :=
  match evs with
  | [] => (s, [])
  | ev :: rest =>
    let r := onReceive s ev
    let r2 := onReceiveSeq r.1 rest
    (r2.1, r.2 ++ r2.2)

-- ============================================================
-- close / cleanup / getters (HybridWebSocket.cpp:424-558)
-- ============================================================

/-- The close-frame request `close()` passes to the transport engine via
`lws_close_reason` (HybridWebSocket.cpp:440-445). -/
structure CloseFrameRequest where
  code : Int
  reason : List Char
deriving DecidableEq, Repr

/-- `LWS_CLOSE_STATUS_NORMAL` = 1000. -/
def LWS_CLOSE_STATUS_NORMAL : Int := 1000

/-- Model of `HybridWebSocket::close` (HybridWebSocket.cpp:424-451):
no-op when already CLOSING or CLOSED; otherwise set state CLOSING, and —
when `_wsi` is non-null — request a close frame carrying the caller's code
(default `LWS_CLOSE_STATUS_NORMAL`) and reason (default empty), then stop
the service loop. Returns the state and the close-frame request, if any. -/
def close (s : WSState) (code : Option Int) (reason : Option (List Char)) :
    WSState × Option CloseFrameRequest :=
  if s.state = State.CLOSED ∨ s.state = State.CLOSING then (s, none)
  else
    let s1 := { s with state := State.CLOSING }
    if s1.wsi then
      ({ s1 with running := false },
        some ⟨code.getD LWS_CLOSE_STATUS_NORMAL, reason.getD []⟩)
    else
      ({ s1 with running := false }, none)

/-- The invocation `_onClose(code, reason)` as the user handler observes it. -/
structure CloseCallbackCall where
  code : Int
  reason : List Char
deriving DecidableEq, Repr

/-- Model of the `LWS_CALLBACK_CLIENT_CLOSED` case of `websocketCallback`
(HybridWebSocket.cpp:768-779): state becomes CLOSED and, when an `onClose`
handler is set, it is invoked with the hard-coded arguments
`(1000.0, "Connection closed")`. -/
def onClosedEvent (s : WSState) : WSState × Option CloseCallbackCall :=
  let s1 := { s with state := State.CLOSED }
  (s1, if s1.onCloseSet then some ⟨1000, ("Connection closed").toList⟩ else none)

/-- Model of `HybridWebSocket::cleanup` (HybridWebSocket.cpp:457-484):
stop and join the service loop, destroy the context, null the session
handle, set state CLOSED, pop the whole send queue, store 0 into
`_queueBytes`, and clear `_fragmentBuffer`. -/
def cleanup (s : WSState) : WSState :=
  { s with running := false,
           context := false,
           wsi := false,
           state := State.CLOSED,
           sendQueue := [],
           queueBytes := 0,
           fragmentBuffer := [] }

/-- `HybridWebSocket::getState` (HybridWebSocket.cpp:500-502): the numeric
value of the current state. -/
def getState (s : WSState) : Nat := s.state.code

/-- The record returned by `getConnectionMetrics`
(HybridWebSocket.cpp:542-558). -/
structure ConnectionMetrics where
  messagesSent : Nat
  messagesReceived : Nat
  bytesSent : Nat
  bytesReceived : Nat
  pingLatencyMs : Int
  queueDepth : Nat
  queueBytes : Nat
deriving DecidableEq, Repr

/-- Model of `HybridWebSocket::getConnectionMetrics`
(HybridWebSocket.cpp:542-558). -/
def getConnectionMetrics (s : WSState) : ConnectionMetrics :=
  ⟨s.messagesSent, s.messagesReceived, s.bytesSent, s.bytesReceived,
    s.pingLatencyMs, s.sendQueue.length, s.queueBytes⟩

-- ============================================================
-- Callback dispatch traces (lock discipline around handler calls)
-- ============================================================

/-- The five user-handler slots of the callback table. -/
inductive HandlerSlot where
  | onOpen
  | onMessage
  | onBinaryMessage
  | onError
  | onClose
deriving DecidableEq, Repr

/-- Atomic actions on `_callbackMutex` and the handler slots, in the order a
dispatch site performs them. `lockCB` is a `lock_guard` construction or a
successful `try_lock`; `unlockCB` is an explicit `unlock()` or the guard
leaving scope; `copyHandler` is `auto callback = _onX.value()`. -/
inductive DispatchAction where
  | lockCB
  | unlockCB
  | copyHandler (slot : HandlerSlot)
  | invokeHandler (slot : HandlerSlot)
deriving DecidableEq, Repr

/-- Dispatch of `_onOpen` in the `LWS_CALLBACK_CLIENT_ESTABLISHED` case
(HybridWebSocket.cpp:594-601): a `lock_guard` is taken and the handler is
called inside its scope. -/
def openDispatchTrace : List DispatchAction :=
  [DispatchAction.lockCB,
   DispatchAction.invokeHandler HandlerSlot.onOpen,
   DispatchAction.unlockCB]

/-- Dispatch of `_onError` in the `LWS_CALLBACK_CLIENT_CONNECTION_ERROR`
case (HybridWebSocket.cpp:759-764): a `lock_guard` is taken and the handler
is called inside its scope. -/
def errorDispatchTrace : List DispatchAction :=
  [DispatchAction.lockCB,
   DispatchAction.invokeHandler HandlerSlot.onError,
   DispatchAction.unlockCB]

/-- Dispatch of `_onClose` in the `LWS_CALLBACK_CLIENT_CLOSED` case
(HybridWebSocket.cpp:772-776): a `lock_guard` is taken and the handler is
called inside its scope. -/
def closeDispatchTrace : List DispatchAction :=
  [DispatchAction.lockCB,
   DispatchAction.invokeHandler HandlerSlot.onClose,
   DispatchAction.unlockCB]

/-- Dispatch of `_onMessage` in the receive paths
(HybridWebSocket.cpp:655-662 and 697-708): `try_lock`, copy the handler
out, `unlock()`, then call the copy outside the lock. -/
def messageDispatchTrace : List DispatchAction :=
  [DispatchAction.lockCB,
   DispatchAction.copyHandler HandlerSlot.onMessage,
   DispatchAction.unlockCB,
   DispatchAction.invokeHandler HandlerSlot.onMessage]

/-- Dispatch of `_onBinaryMessage` in the receive paths
(HybridWebSocket.cpp:644-650 and 678-689): `try_lock`, copy the handler
out, `unlock()`, then call the copy outside the lock. -/
def binaryMessageDispatchTrace : List DispatchAction :=
  [DispatchAction.lockCB,
   DispatchAction.copyHandler HandlerSlot.onBinaryMessage,
   DispatchAction.unlockCB,
   DispatchAction.invokeHandler HandlerSlot.onBinaryMessage]

/-- Walk a dispatch trace tracking the lock depth of `_callbackMutex`;
`true` iff some handler invocation happens at positive depth. -/
def invokeLockedAux : List DispatchAction → Nat → Bool
  | [], _ => false
  | DispatchAction.lockCB :: rest, d => invokeLockedAux rest (d + 1)
  | DispatchAction.unlockCB :: rest, d => invokeLockedAux rest (d - 1)
  | DispatchAction.copyHandler _ :: rest, d => invokeLockedAux rest d
  | DispatchAction.invokeHandler _ :: rest, d =>
      (0 < d : Bool) || invokeLockedAux rest d

/-- `true` iff the trace invokes a user handler while `_callbackMutex` is
held. -/
def invokesHandlerWhileLocked (tr : List DispatchAction) : Bool :=
  invokeLockedAux tr 0

-- ============================================================
-- Buffer pool (HybridWebSocket.hpp:192-195, 237-245)
-- ============================================================

/-- A `std::vector<uint8_t>` viewed through the two quantities the pool
cares about: its capacity and its current length. -/
structure PoolBuffer where
  capacity : Nat
  length : Nat
deriving DecidableEq, Repr

/-- `static constexpr size_t MAX_POOLED_BUFFERS = 10`
(HybridWebSocket.hpp:194). -/
def MAX_POOLED_BUFFERS : Nat := 10

/-- `static constexpr size_t BUFFER_SIZE = 4096` (HybridWebSocket.hpp:195),
the default capacity of a freshly allocated buffer. -/
def BUFFER_SIZE : Nat := 4096

/-- First pooled buffer whose capacity is at least `size`, together with the
rest of the pool. -/
def findFit : List PoolBuffer → Nat → Option (PoolBuffer × List PoolBuffer)
  | [], _ => none
  | b :: rest, size =>
    if size ≤ b.capacity then some (b, rest)
    else
      match findFit rest size with
      | some (f, others) => some (f, b :: others)
      | none => none

/-- Result of an acquire: the buffer handed out, the remaining pool, and
whether a fresh allocation was performed. -/
structure AcquireResult where
  buffer : PoolBuffer
  pool : List PoolBuffer
  allocated : Bool
deriving DecidableEq, Repr

/-- Modelled from the spec: `HybridWebSocket::getBuffer` is declared at
HybridWebSocket.hpp:240 but its definition is not among the sources shipped
here. Spec §4.8: under the pool lock, return a pooled buffer whose existing
capacity is ≥ `size` if one exists, resized to exactly `size` (a resize
within capacity keeps the capacity); otherwise allocate a new buffer with
capacity `max(size, DEFAULT_BUFFER_SIZE)`. -/
def getBuffer (pool : List PoolBuffer) (size : Nat) : AcquireResult :=
  match findFit pool size with
  | some (b, rest) => ⟨⟨b.capacity, size⟩, rest, false⟩
  | none => ⟨⟨max size BUFFER_SIZE, size⟩, pool, true⟩

/-- Modelled from the spec: `HybridWebSocket::returnBuffer` is declared at
HybridWebSocket.hpp:245 but its definition is not among the sources shipped
here. Spec §4.8: clear the buffer's contents (retaining capacity) and return
it to the pool only if the pool has not yet reached `MAX_POOLED_BUFFERS`;
otherwise drop it. -/
def returnBuffer (pool : List PoolBuffer) (buf : PoolBuffer) : List PoolBuffer :=
  if pool.length < MAX_POOLED_BUFFERS then pool ++ [⟨buf.capacity, 0⟩]
  else pool

/-- A first fragment of a multi-frame message: first, not final. -/
def firstFragEvent (bin : Bool) (bytes : List Nat) : DataEvent :=
  ⟨bin, true, false, bytes⟩

/-- An intermediate fragment: neither first nor final. -/
def midFragEvent (bin : Bool) (bytes : List Nat) : DataEvent :=
  ⟨bin, false, false, bytes⟩

/-- A final fragment of a multi-frame message: final, not first. -/
def finalFragEvent (bin : Bool) (bytes : List Nat) : DataEvent :=
  ⟨bin, false, true, bytes⟩

/-- Concatenation of a list of byte slices, in order. -/
def concatAll (ls : List (List Nat)) : List Nat :=
  ls.foldr (fun a b => a ++ b) []

-- ============================================================
-- Concrete states used by witnesses
-- ============================================================

/-- A freshly opened connection: OPEN state, empty queue, zeroed counters,
all five handlers set, live context/session/loop. -/
def openEmptyState : WSState where
  state := State.OPEN
  sendQueue := []
  queueBytes := 0
  messagesSent := 0
  messagesReceived := 0
  bytesSent := 0
  bytesReceived := 0
  pingLatencyMs := 0
  fragmentBuffer := []
  fragmentIsBinary := false
  running := true
  context := true
  wsi := true
  onOpenSet := true
  onMessageSet := true
  onBinaryMessageSet := true
  onErrorSet := true
  onCloseSet := true

/-- An open connection whose queue already holds two messages. -/
def twoQueuedState : WSState :=
  { openEmptyState with
      sendQueue := [⟨[1], false⟩, ⟨[2, 3], true⟩],
      queueBytes := 3 }

/-- A connection in the CLOSED state. -/
def closedIdleState : WSState :=
  { openEmptyState with state := State.CLOSED, running := false, wsi := false }

-- ============================================================
-- Theorems
-- ============================================================

/-- C1. The claim says every successful `send(message)` increases the
queue-bytes counter by exactly the length of the message, keeping
`sum(payload.length for all queued) == queueBytesCounter`. The code instead
runs `_queueBytes.fetch_add(msg.data.size())` after `msg` has been moved
into the queue, so the counter gains 0: after a successful `send` of the
two-byte message "AB" on a fresh OPEN connection, the queue holds 2 payload
bytes while `_queueBytes` still reads 0. -/
theorem send_queueBytes_counter_not_incremented :
    (send 100 1000 openEmptyState [65, 66]).2 = none ∧
    queuePayloadSum (send 100 1000 openEmptyState [65, 66]).1.sendQueue = 2 ∧
    (send 100 1000 openEmptyState [65, 66]).1.queueBytes = 0 := by
  refine ⟨rfl, rfl, ?_⟩
  show addU64 0 (List.length []) = 0
  rfl

/-- C5. In the OPEN state, `send` and `sendBinary` fail with QueueFull —
leaving the whole connection state, queue and counter included, exactly as
it was — precisely when the queue already holds `MAX_QUEUE_SIZE` messages
or `_queueBytes` has reached `MAX_QUEUE_BYTES`; otherwise they succeed and
append the message at the tail of the queue. -/
theorem enqueue_backpressure_queuefull (maxQS maxQB : Nat) (s : WSState)
    (payload : List Nat) (hopen : s.state = State.OPEN) :
    ((maxQS ≤ s.sendQueue.length ∨ maxQB ≤ s.queueBytes) →
      send maxQS maxQB s payload = (s, some WSError.QueueFull) ∧
      sendBinary maxQS maxQB s payload = (s, some WSError.QueueFull)) ∧
    (s.sendQueue.length < maxQS → s.queueBytes < maxQB →
      (send maxQS maxQB s payload).1.sendQueue = s.sendQueue ++ [⟨payload, false⟩] ∧
      (send maxQS maxQB s payload).2 = none ∧
      (sendBinary maxQS maxQB s payload).1.sendQueue = s.sendQueue ++ [⟨payload, true⟩] ∧
      (sendBinary maxQS maxQB s payload).2 = none) := by
  constructor
  · intro h
    constructor <;> simp [send, sendBinary, hopen, h]
  · intro h1 h2
    have hc : ¬(maxQS ≤ s.sendQueue.length ∨ maxQB ≤ s.queueBytes) := by
      push_neg
      exact ⟨h1, h2⟩
    refine ⟨?_, ?_, ?_, ?_⟩ <;> simp [send, sendBinary, hopen, hc]

/-- C5 witness: with bounds (2, 100), an OPEN connection whose queue holds
two messages rejects an enqueue unchanged with QueueFull, and a fresh OPEN
connection appends the message at the tail. -/
theorem enqueue_backpressure_queuefull_witness :
    (send 2 100 twoQueuedState [7] = (twoQueuedState, some WSError.QueueFull) ∧
     sendBinary 2 100 twoQueuedState [7] = (twoQueuedState, some WSError.QueueFull)) ∧
    ((send 10 100 openEmptyState [7]).1.sendQueue
        = openEmptyState.sendQueue ++ [⟨[7], false⟩] ∧
     (send 10 100 openEmptyState [7]).2 = none ∧
     (sendBinary 10 100 openEmptyState [7]).1.sendQueue
        = openEmptyState.sendQueue ++ [⟨[7], true⟩] ∧
     (sendBinary 10 100 openEmptyState [7]).2 = none) :=
  ⟨(enqueue_backpressure_queuefull 2 100 twoQueuedState [7] rfl).1
      (Or.inl (by decide)),
   (enqueue_backpressure_queuefull 10 100 openEmptyState [7] rfl).2
      (by decide) (by decide)⟩

/-- C6. Whenever the state is not OPEN, `send` and `sendBinary` throw
NotOpen before touching the queue: the connection state is returned
unchanged with the NotOpen error, for any queue bounds and payload. -/
theorem send_not_open_rejected (maxQS maxQB : Nat) (s : WSState)
    (payload : List Nat) (h : s.state ≠ State.OPEN) :
    send maxQS maxQB s payload = (s, some WSError.NotOpen) ∧
    sendBinary maxQS maxQB s payload = (s, some WSError.NotOpen) := by
  constructor <;> simp [send, sendBinary, h]

/-- C6 witness: a CLOSED connection rejects both `send` and `sendBinary`
with NotOpen, unchanged. -/
theorem send_not_open_rejected_witness :
    send 10 100 closedIdleState [1] = (closedIdleState, some WSError.NotOpen) ∧
    sendBinary 10 100 closedIdleState [1] = (closedIdleState, some WSError.NotOpen) :=
  send_not_open_rejected 10 100 closedIdleState [1] (by decide)

/-- C7. After `cleanup` from any prior state: the state is CLOSED (and
`getState()` reports its numeric code 3), the send queue is empty,
`getConnectionMetrics().queueBytes` is 0, the fragment buffer is reset to
empty — and `cleanup` is idempotent: running it again changes nothing. -/
theorem cleanup_postconditions_idempotent (s : WSState) :
    (cleanup s).state = State.CLOSED ∧
    getState (cleanup s) = 3 ∧
    (cleanup s).sendQueue = [] ∧
    (getConnectionMetrics (cleanup s)).queueBytes = 0 ∧
    (cleanup s).fragmentBuffer = [] ∧
    cleanup (cleanup s) = cleanup s :=
  ⟨rfl, rfl, rfl, rfl, rfl, rfl⟩

/-- C8 counterexample. The claim says no user handler is ever invoked while
the callback lock is held; but the `onOpen`, `onError`, and `onClose`
dispatch sites call the handler inside the scope of a
`lock_guard(_callbackMutex)`, so the handler runs with the lock held. -/
theorem callback_dispatch_lock_counterexample :
    invokesHandlerWhileLocked openDispatchTrace = true ∧
    invokesHandlerWhileLocked errorDispatchTrace = true ∧
    invokesHandlerWhileLocked closeDispatchTrace = true := by decide

/-- C8 amended. Only the `onMessage` and `onBinaryMessage` dispatches follow
the copy-out-then-unlock discipline — their handler runs with the callback
lock released — while the `onOpen`, `onError`, and `onClose` handlers are
invoked while the callback lock is held. -/
theorem callback_dispatch_lock_amended :
    invokesHandlerWhileLocked messageDispatchTrace = false ∧
    invokesHandlerWhileLocked binaryMessageDispatchTrace = false ∧
    invokesHandlerWhileLocked openDispatchTrace = true ∧
    invokesHandlerWhileLocked errorDispatchTrace = true ∧
    invokesHandlerWhileLocked closeDispatchTrace = true := by decide

/-- C10. When the transport engine reports the connection closed and an
`onClose` handler is set, the handler always receives the hard-coded
arguments `(1000, "Connection closed")`; the code and reason the caller
passes to `close()` reach only the transport engine's close-frame request,
exactly as supplied. -/
theorem onClose_constant_args (s : WSState) (c : Int) (r : List Char)
    (hset : s.onCloseSet = true)
    (h1 : s.state ≠ State.CLOSED) (h2 : s.state ≠ State.CLOSING)
    (hwsi : s.wsi = true) :
    (onClosedEvent s).2 = some ⟨1000, ("Connection closed").toList⟩ ∧
    (close s (some c) (some r)).2 = some ⟨c, r⟩ := by
  constructor
  · simp [onClosedEvent, hset]
  · simp [close, h1, h2, hwsi]

/-- C10 witness: on an OPEN connection, the closed event invokes `onClose`
with `(1000, "Connection closed")`, and `close(4001, "bye")` forwards
exactly `(4001, "bye")` to the transport close-frame request. -/
theorem onClose_constant_args_witness :
    (onClosedEvent openEmptyState).2
        = some ⟨1000, ("Connection closed").toList⟩ ∧
    (close openEmptyState (some 4001) (some (("bye").toList))).2
        = some ⟨4001, ("bye").toList⟩ :=
  onClose_constant_args openEmptyState 4001 (("bye").toList) rfl
    (by decide) (by decide) rfl

-- C4: fragment reassembly

lemma onReceiveSeq_cons (s : WSState) (ev : DataEvent) (rest : List DataEvent) :
    onReceiveSeq s (ev :: rest)
      = ((onReceiveSeq (onReceive s ev).1 rest).1,
         (onReceive s ev).2 ++ (onReceiveSeq (onReceive s ev).1 rest).2) := rfl

lemma onReceive_first_eq (s : WSState) (b : Bool) (bytes : List Nat) :
    onReceive s (firstFragEvent b bytes)
      = ({ s with bytesReceived := addU64 s.bytesReceived bytes.length,
                  fragmentIsBinary := b,
                  fragmentBuffer := bytes }, []) := rfl

lemma onReceive_mid_eq (s : WSState) (b : Bool) (bytes : List Nat) :
    onReceive s (midFragEvent b bytes)
      = ({ s with bytesReceived := addU64 s.bytesReceived bytes.length,
                  fragmentBuffer := s.fragmentBuffer ++ bytes }, []) := rfl

lemma onReceive_final_eq (s : WSState) (b : Bool) (bytes : List Nat) :
    onReceive s (finalFragEvent b bytes)
      = ({ s with bytesReceived := addU64 s.bytesReceived bytes.length,
                  messagesReceived := addU64 s.messagesReceived 1,
                  fragmentBuffer := [] },
         if s.fragmentIsBinary then
           (if s.onBinaryMessageSet then
              [Emit.binaryMsg (s.fragmentBuffer ++ bytes)] else [])
         else
           (if s.onMessageSet then
              [Emit.textMsg (s.fragmentBuffer ++ bytes)] else [])) := rfl

/-- Processing the intermediate fragments and the final fragment of a
message: exactly one callback fires, chosen by the captured
`_fragmentIsBinary` flag, carrying the buffer so far followed by all the
remaining fragments' bytes in order. -/
lemma frag_tail_emits (binF : Bool) (bF : List Nat) :
    ∀ (mids : List (Bool × List Nat)) (s : WSState),
      s.onMessageSet = true → s.onBinaryMessageSet = true →
      (onReceiveSeq s (mids.map (fun m => midFragEvent m.1 m.2)
          ++ [finalFragEvent binF bF])).2
        = [if s.fragmentIsBinary
            then Emit.binaryMsg (s.fragmentBuffer ++ concatAll (mids.map Prod.snd) ++ bF)
            else Emit.textMsg (s.fragmentBuffer ++ concatAll (mids.map Prod.snd) ++ bF)] := by
  intro mids
  induction mids with
  | nil =>
    intro s hm hb
    rw [List.map_nil, List.nil_append, onReceiveSeq_cons, onReceive_final_eq]
    cases hfb : s.fragmentIsBinary <;>
      simp [hfb, hm, hb, onReceiveSeq, concatAll]
  | cons hd tl ih =>
    intro s hm hb
    rw [List.map_cons, List.cons_append, onReceiveSeq_cons, onReceive_mid_eq]
    have h := ih { s with
        bytesReceived := addU64 s.bytesReceived hd.2.length,
        fragmentBuffer := s.fragmentBuffer ++ hd.2 } hm hb
    simp only [List.nil_append] at h ⊢
    rw [h]
    cases hfb : s.fragmentIsBinary <;>
      simp [hfb, concatAll, List.append_assoc]

/-- C4. An inbound fragment sequence — a first fragment, any intermediate
fragments, and a final fragment — produces exactly one callback invocation,
carrying the concatenation of all fragments' bytes in arrival order; it is
`onBinaryMessage` exactly when the FIRST fragment's binary flag was set
(the flags on intermediate and final frames are arbitrary here and do not
matter), and the complementary callback is never invoked. -/
theorem fragment_reassembly_single_callback (s : WSState) (bin : Bool)
    (b0 : List Nat) (mids : List (Bool × List Nat)) (binF : Bool) (bF : List Nat)
    (hm : s.onMessageSet = true) (hb : s.onBinaryMessageSet = true) :
    (onReceiveSeq s (firstFragEvent bin b0
        :: (mids.map (fun m => midFragEvent m.1 m.2) ++ [finalFragEvent binF bF]))).2
      = [if bin then Emit.binaryMsg (b0 ++ concatAll (mids.map Prod.snd) ++ bF)
         else Emit.textMsg (b0 ++ concatAll (mids.map Prod.snd) ++ bF)] := by
  rw [onReceiveSeq_cons, onReceive_first_eq]
  have h := frag_tail_emits binF bF mids { s with
      bytesReceived := addU64 s.bytesReceived b0.length,
      fragmentIsBinary := bin,
      fragmentBuffer := b0 } hm hb
  exact h

/-- C4 witness: `first(bin=true,"AB") → mid("CD") → final("EF")` (the mid
frame flagged text, the final frame flagged text) yields exactly one
`onBinaryMessage` call with payload `"ABCDEF"` and zero `onMessage` calls. -/
theorem fragment_reassembly_single_callback_witness :
    (onReceiveSeq openEmptyState (firstFragEvent true [65, 66]
        :: ([(false, [67, 68])].map (fun m => midFragEvent m.1 m.2)
            ++ [finalFragEvent false [69, 70]]))).2
      = [Emit.binaryMsg [65, 66, 67, 68, 69, 70]] := by
  have h := fragment_reassembly_single_callback openEmptyState true [65, 66]
    [(false, [67, 68])] false [69, 70] rfl rfl
  simpa [concatAll] using h

-- C2: URL parser

lemma takeWhile_append_all (p : Char → Bool) :
    ∀ (l1 l2 : List Char), (∀ c ∈ l1, p c = true) →
      (l1 ++ l2).takeWhile p = l1 ++ l2.takeWhile p := by
  intro l1
  induction l1 with
  | nil => intro l2 h; simp
  | cons a l ih =>
    intro l2 h
    have ha : p a = true := h a (List.mem_cons_self a l)
    simp only [List.cons_append, List.takeWhile_cons, ha, if_true]
    rw [ih l2 (fun c hc => h c (List.mem_cons_of_mem a hc))]

lemma dropWhile_append_all (p : Char → Bool) :
    ∀ (l1 l2 : List Char), (∀ c ∈ l1, p c = true) →
      (l1 ++ l2).dropWhile p = l2.dropWhile p := by
  intro l1
  induction l1 with
  | nil => intro l2 h; simp
  | cons a l ih =>
    intro l2 h
    have ha : p a = true := h a (List.mem_cons_self a l)
    simp only [List.cons_append, List.dropWhile_cons, ha, if_true]
    exact ih l2 (fun c hc => h c (List.mem_cons_of_mem a hc))

lemma takeWhile_eq_self_all (p : Char → Bool) (l : List Char)
    (h : ∀ c ∈ l, p c = true) : l.takeWhile p = l := by
  have h2 := takeWhile_append_all p l [] h
  simpa using h2

lemma digit_not_space {c : Char} (h : c.isDigit = true) : isCppSpace c = false := by
  cases hs : isCppSpace c
  · rfl
  · exfalso
    unfold isCppSpace at hs
    simp only [Bool.or_eq_true, beq_iff_eq] at hs
    rcases hs with (((((h1 | h1) | h1) | h1) | h1) | h1) <;> subst h1 <;>
      exact absurd h (by decide)

lemma digit_ne_minus {c : Char} (h : c.isDigit = true) : c ≠ '-' := by
  intro he
  subst he
  exact absurd h (by decide)

lemma digit_ne_plus {c : Char} (h : c.isDigit = true) : c ≠ '+' := by
  intro he
  subst he
  exact absurd h (by decide)

lemma digit_not_slash {c : Char} (h : c.isDigit = true) : (!(c == '/')) = true := by
  cases hc : c == '/'
  · rfl
  · have he : c = '/' := by simpa using hc
    subst he
    exact absurd h (by decide)

/-- On a non-empty all-digit string whose value fits in `int`, `std::stoi`
returns exactly its base-10 value. -/
lemma stoi_digits (p : List Char) (hne : p ≠ []) (hd : ∀ c ∈ p, c.isDigit = true)
    (hlt : (digitsToNat p : Int) < 2 ^ 31) :
    stoi p = some ((digitsToNat p : Int)) := by
  cases p with
  | nil => exact absurd rfl hne
  | cons a l =>
    have ha : a.isDigit = true := hd a (List.mem_cons_self a l)
    have hdrop : (a :: l).dropWhile isCppSpace = a :: l := by
      simp [List.dropWhile_cons, digit_not_space ha]
    have hma : a ≠ '-' := digit_ne_minus ha
    have hpa : a ≠ '+' := digit_ne_plus ha
    have ht2 : ¬(a = '-' ∨ a = '+') := by
      rintro (h1 | h1)
      · exact hma h1
      · exact hpa h1
    have htw : (a :: l).takeWhile Char.isDigit = a :: l :=
      takeWhile_eq_self_all _ _ hd
    have hds : ¬(a :: l = []) := by simp
    have hrange : ¬((1 : Int) * (digitsToNat (a :: l) : Int) < -(2 ^ 31 : Int) ∨
        (2 ^ 31 : Int) ≤ (1 : Int) * (digitsToNat (a :: l) : Int)) := by
      have h0 : (0 : Int) ≤ (digitsToNat (a :: l) : Int) := Int.ofNat_nonneg _
      rw [one_mul]
      omega
    simp only [stoi, hdrop, List.head?_cons, Option.some.injEq]
    rw [if_neg hma, if_neg ht2, htw, if_neg hds, if_neg hrange, one_mul]

lemma ite_some_ne_none {c : Prop} [Decidable c] {a b : ParsedUrl} :
    (if c then some a else some b) ≠ none := by
  by_cases h : c <;> simp [h]

lemma parseUrl_scheme (ssl : Bool) (rest : List Char) :
    parseUrl (schemeChars ssl ++ rest) = parseAfterScheme ssl rest := by
  cases ssl
  · have h6 : ¬((schemeChars false ++ rest).take 6 = schemeChars true) := by
      cases rest with
      | nil => decide
      | cons a l =>
        intro h
        have hg : ((schemeChars false ++ (a :: l)).take 6).get? 2 = some ':' := rfl
        rw [h] at hg
        exact absurd hg (by decide)
    unfold parseUrl
    rw [if_neg h6,
      if_pos (show (schemeChars false ++ rest).take 5 = schemeChars false from rfl)]
    rfl
  · unfold parseUrl
    rw [if_pos (show (schemeChars true ++ rest).take 6 = schemeChars true from rfl)]
    rfl

/-- C2 counterexample. The claim says every input other than a well-formed
`ws://host[:port][/path]` — in particular one whose port segment does not
parse as an integer — fails with InvalidUrl. But `std::stoi` ignores
trailing garbage, so the port segment `12x` parses to 12 and
`"ws://h:12x/p"` succeeds instead of failing. -/
theorem parseUrl_spec_counterexample :
    parseUrl (("ws://h:12x/p").toList)
      = some ⟨false, ['h'], 12, ("/p").toList⟩ := by decide

/-- C2 amended. (1) For well-formed inputs with an explicit all-digit port
within `int` range, the parser yields exactly (scheme, host, port, path),
with path defaulting to "/" when absent. (2) Likewise without a port
segment, the port defaulting to 80 for `ws://` and 443 for `wss://`.
(3) Any input not starting with `ws://` or `wss://` fails. (4) For inputs
with a recognized scheme, the parse fails exactly when the host (the
stretch before the first ':', '/' or '?') is empty, or a ':' follows the
host and `std::stoi` fails on the port segment (no leading integer after
optional whitespace and sign, or out of `int` range) — so a port segment
such as "12x" with trailing garbage is accepted as 12, not rejected. -/
theorem parseUrl_amended :
    (∀ (ssl : Bool) (host pstr path : List Char),
      host ≠ [] → (∀ c ∈ host, notHostDelim c = true) →
      pstr ≠ [] → (∀ c ∈ pstr, c.isDigit = true) →
      (digitsToNat pstr : Int) < 2 ^ 31 →
      (path = [] ∨ ∃ p', path = '/' :: p') →
      parseUrl (schemeChars ssl ++ (host ++ ':' :: (pstr ++ path)))
        = some ⟨ssl, host, (digitsToNat pstr : Int),
            if path = [] then ['/'] else path⟩) ∧
    (∀ (ssl : Bool) (host path : List Char),
      host ≠ [] → (∀ c ∈ host, notHostDelim c = true) →
      (path = [] ∨ ∃ p', path = '/' :: p') →
      parseUrl (schemeChars ssl ++ (host ++ path))
        = some ⟨ssl, host, defaultPort ssl, if path = [] then ['/'] else path⟩) ∧
    (∀ url : List Char, url.take 6 ≠ schemeChars true →
      url.take 5 ≠ schemeChars false → parseUrl url = none) ∧
    (∀ (ssl : Bool) (rest : List Char),
      parseUrl (schemeChars ssl ++ rest) = none ↔
        (rest.takeWhile notHostDelim = [] ∨
         ((rest.dropWhile notHostDelim).head? = some ':' ∧
          stoi ((rest.dropWhile notHostDelim).tail.takeWhile
            (fun c => !(c == '/'))) = none))) := by
  have hcolon : notHostDelim ':' = false := rfl
  have hslash : notHostDelim '/' = false := rfl
  refine ⟨?_, ?_, ?_, ?_⟩
  · -- (1) explicit digit port
    intro ssl host pstr path hne hhost hpne hdig hlt hpath
    rw [parseUrl_scheme]
    have htw : ((host ++ ':' :: (pstr ++ path)).takeWhile notHostDelim) = host := by
      rw [takeWhile_append_all _ _ _ hhost]
      simp [List.takeWhile_cons, hcolon]
    have hdw : ((host ++ ':' :: (pstr ++ path)).dropWhile notHostDelim)
        = ':' :: (pstr ++ path) := by
      rw [dropWhile_append_all _ _ _ hhost]
      simp [List.dropWhile_cons, hcolon]
    have hptw : ((pstr ++ path).takeWhile (fun c => !(c == '/'))) = pstr := by
      rw [takeWhile_append_all _ _ _ (fun c hc => digit_not_slash (hdig c hc))]
      rcases hpath with rfl | ⟨p', rfl⟩
      · simp
      · simp [List.takeWhile_cons]
    have hpdw : ((pstr ++ path).dropWhile (fun c => !(c == '/'))) = path := by
      rw [dropWhile_append_all _ _ _ (fun c hc => digit_not_slash (hdig c hc))]
      rcases hpath with rfl | ⟨p', rfl⟩
      · simp
      · simp [List.dropWhile_cons]
    simp only [parseAfterScheme, htw, hdw, List.head?_cons, List.tail_cons,
      hptw, hpdw]
    rw [if_neg hne, if_pos trivial, stoi_digits pstr hpne hdig hlt]
    rcases hpath with rfl | ⟨p', rfl⟩ <;> simp
  · -- (2) no port segment
    intro ssl host path hne hhost hpath
    rw [parseUrl_scheme]
    have htw : ((host ++ path).takeWhile notHostDelim) = host := by
      rw [takeWhile_append_all _ _ _ hhost]
      rcases hpath with rfl | ⟨p', rfl⟩
      · simp
      · simp [List.takeWhile_cons, hslash]
    have hdw : ((host ++ path).dropWhile notHostDelim) = path := by
      rw [dropWhile_append_all _ _ _ hhost]
      rcases hpath with rfl | ⟨p', rfl⟩
      · simp
      · simp [List.dropWhile_cons, hslash]
    simp only [parseAfterScheme, htw, hdw]
    rw [if_neg hne]
    rcases hpath with rfl | ⟨p', rfl⟩
    · have hn1 : ¬(([] : List Char).head? = some ':') := by simp
      have hn2 : ¬(([] : List Char).head? = some '/') := by simp
      rw [if_neg hn1, if_neg hn2]
      simp
    · have hn1 : ¬(('/' :: p').head? = some ':') :=
        fun hx => absurd (Option.some.inj hx) (by decide)
      rw [if_neg hn1, List.head?_cons, if_pos rfl]
      simp
  · -- (3) unrecognized scheme
    intro url h6 h5
    unfold parseUrl
    rw [if_neg h6, if_neg h5]
  · -- (4) failure characterization behind a recognized scheme
    intro ssl rest
    rw [parseUrl_scheme]
    by_cases hh : rest.takeWhile notHostDelim = []
    · simp [parseAfterScheme, hh]
    · simp only [parseAfterScheme]
      rw [if_neg hh]
      by_cases hc : (rest.dropWhile notHostDelim).head? = some ':'
      · rw [if_pos hc]
        cases hs : stoi ((rest.dropWhile notHostDelim).tail.takeWhile
            (fun c => !(c == '/'))) with
        | none =>
          exact iff_of_true rfl (Or.inr ⟨hc, rfl⟩)
        | some p =>
          constructor
          · intro h
            exact absurd h ite_some_ne_none
          · rintro (h | ⟨h1, h2⟩)
            · exact absurd h hh
            · exact Option.noConfusion h2
      · rw [if_neg hc]
        constructor
        · intro h
          exact absurd h ite_some_ne_none
        · rintro (h | ⟨h1, h2⟩)
          · exact absurd h hh
          · exact absurd h1 hc

/-- C2 witness: concrete instances of each part of the amended theorem —
`wss://h:9/a` parses to (secure, "h", 9, "/a"); `ws://h` parses to
(plain, "h", 80, "/"); `http:` fails; behind a recognized scheme, `h:x`
fails exactly because `stoi` fails on its port segment. -/
theorem parseUrl_amended_witness :
    parseUrl (schemeChars true ++ (['h'] ++ ':' :: (['9'] ++ ['/', 'a'])))
      = some ⟨true, ['h'], (digitsToNat ['9'] : Int),
          if (['/', 'a'] : List Char) = [] then ['/'] else ['/', 'a']⟩ ∧
    parseUrl (schemeChars false ++ (['h'] ++ []))
      = some ⟨false, ['h'], defaultPort false,
          if ([] : List Char) = [] then ['/'] else []⟩ ∧
    parseUrl (("http:").toList) = none ∧
    (parseUrl (schemeChars false ++ (("h:x").toList)) = none ↔
      ((("h:x").toList).takeWhile notHostDelim = [] ∨
       (((("h:x").toList).dropWhile notHostDelim).head? = some ':' ∧
        stoi (((("h:x").toList).dropWhile notHostDelim).tail.takeWhile
          (fun c => !(c == '/'))) = none))) :=
  ⟨parseUrl_amended.1 true ['h'] ['9'] ['/', 'a'] (by decide) (by decide)
      (by decide) (by decide) (by decide) (Or.inr ⟨['a'], rfl⟩),
   parseUrl_amended.2.1 false ['h'] [] (by decide) (by decide) (Or.inl rfl),
   parseUrl_amended.2.2.1 (("http:").toList) (by decide) (by decide),
   parseUrl_amended.2.2.2 false (("h:x").toList)⟩

-- C3: service-loop drain

lemma queuePayloadSum_nil : queuePayloadSum [] = 0 := rfl

lemma queuePayloadSum_cons (m : QueuedMessage) (q : List QueuedMessage) :
    queuePayloadSum (m :: q) = m.data.length + queuePayloadSum q := by
  simp [queuePayloadSum]

lemma addU64_eq {a b : Nat} (h : a + b < U64) : addU64 a b = a + b :=
  Nat.mod_eq_of_lt h

lemma subU64_eq {a b : Nat} (h1 : b ≤ a) (h2 : a < U64) : subU64 a b = a - b := by
  unfold subU64
  have hb : b % U64 = b := Nat.mod_eq_of_lt (lt_of_le_of_lt h1 h2)
  rw [hb]
  have h3 : a + (U64 - b) = U64 + (a - b) := by
    have : b ≤ U64 := le_of_lt (lt_of_le_of_lt h1 h2)
    omega
  rw [h3, Nat.add_mod_left]
  exact Nat.mod_eq_of_lt (by omega)

/-- Full characterization of one batch-drain loop: some prefix of the queue
(of length `k`) is written in order; the queue keeps exactly the remaining
suffix; `_queueBytes` loses and the sent metrics gain exactly the written
bytes; each written message's write attempt reported a complete write; and
if a message remains at the head while neither batch bound was hit, its
write attempt reported an incomplete write. -/
lemma drainGo_spec (writeResult : Nat → Int) :
    ∀ (queue : List QueuedMessage) (qb ms bs bc bb : Nat),
      queuePayloadSum queue ≤ qb → qb < U64 →
      ms + queue.length < U64 → bs + queuePayloadSum queue < U64 →
      ∃ k, k ≤ queue.length ∧
        drainGo writeResult queue qb ms bs bc bb
          = (queue.drop k, qb - queuePayloadSum (queue.take k), ms + k,
             bs + queuePayloadSum (queue.take k), queue.take k) ∧
        (∀ i (hi : i < (queue.take k).length),
          writeResult (bc + i) = (((queue.take k).get ⟨i, hi⟩).data.length : Int)) ∧
        (∀ m q', queue.drop k = m :: q' → bc + k < MAX_BATCH_SIZE →
          bb + queuePayloadSum (queue.take k) < MAX_BATCH_BYTES →
          writeResult (bc + k) ≠ (m.data.length : Int)) := by
  intro queue
  induction queue with
  | nil =>
    intro qb ms bs bc bb h1 h2 h3 h4
    refine ⟨0, Nat.le_refl 0, ?_, ?_, ?_⟩
    · simp [drainGo, queuePayloadSum]
    · intro i hi
      simp at hi
    · intro m q' hdrop
      simp at hdrop
  | cons msg restQ ih =>
    intro qb ms bs bc bb h1 h2 h3 h4
    rw [queuePayloadSum_cons] at h1 h4
    by_cases hcond : bc < MAX_BATCH_SIZE ∧ bb < MAX_BATCH_BYTES
    · by_cases hw : writeResult bc = (msg.data.length : Int)
      · -- complete write: the message is popped and the loop recurses
        have hsz : msg.data.length ≤ qb := by omega
        have hsub : subU64 qb msg.data.length = qb - msg.data.length :=
          subU64_eq hsz h2
        have hms1 : addU64 ms 1 = ms + 1 := addU64_eq (by simp at h3; omega)
        have hbs1 : addU64 bs msg.data.length = bs + msg.data.length :=
          addU64_eq (by omega)
        obtain ⟨k, hk, heq, hrep, hstop⟩ :=
          ih (qb - msg.data.length) (ms + 1) (bs + msg.data.length)
            (bc + 1) (bb + msg.data.length)
            (by omega) (by omega) (by simp at h3 ⊢; omega) (by omega)
        refine ⟨k + 1, by simp; omega, ?_, ?_, ?_⟩
        · simp only [drainGo]
          rw [if_pos hcond, if_pos hw, hsub, hms1, hbs1, heq]
          simp only [List.take_succ_cons, List.drop_succ_cons,
            queuePayloadSum_cons, Prod.mk.injEq, true_and, and_true]
          omega
        · intro i
          cases i with
          | zero =>
            intro hi
            exact hw
          | succ j =>
            intro hi
            have hj : j < (restQ.take k).length := by
              rw [List.take_succ_cons] at hi
              simpa using Nat.lt_of_succ_lt_succ hi
            have h := hrep j hj
            rw [show bc + (j + 1) = bc + 1 + j by omega]
            exact h
        · intro m q' hdrop hbc hbb
          rw [List.drop_succ_cons] at hdrop
          rw [List.take_succ_cons, queuePayloadSum_cons] at hbb
          have := hstop m q' hdrop (by omega) (by omega)
          rw [show bc + (k + 1) = bc + 1 + k by omega]
          exact this
      · -- incomplete write: the message stays at the head, the batch aborts
        refine ⟨0, Nat.zero_le _, ?_, ?_, ?_⟩
        · simp only [drainGo]
          rw [if_pos hcond, if_neg hw]
          simp [queuePayloadSum]
        · intro i hi
          simp at hi
        · intro m q' hdrop hbc hbb
          rw [List.drop_zero] at hdrop
          injection hdrop with hm hq
          rw [Nat.add_zero, ← hm]
          exact hw
    · -- batch bounds already hit before this message
      refine ⟨0, Nat.zero_le _, ?_, ?_, ?_⟩
      · simp only [drainGo]
        rw [if_neg hcond]
        simp [queuePayloadSum]
      · intro i hi
        simp at hi
      · intro m q' hdrop hbc hbb
        rw [List.take_zero, queuePayloadSum_nil, Nat.add_zero] at hbb
        rw [Nat.add_zero] at hbc
        exact absurd ⟨hbc, hbb⟩ hcond

/-- C3. In every drain performed by the service loop (on an OPEN connection
with a live session, with the queue-bytes counter consistent and the 64-bit
counters away from wraparound): there is a `k` such that exactly the first
`k` queued messages are written, in enqueue order (FIFO — the queue keeps
exactly the remaining suffix, so no reordering within or across batches);
a message's bytes are subtracted from the queue-bytes counter and added to
the sent metrics exactly when the transport reported a complete write of
that message; and when a message remains at the head although neither batch
bound was reached, its write came back short, which aborted the rest of the
batch. -/
theorem serviceLoopDrain_fifo_complete_write (writeResult : Nat → Int)
    (s : WSState)
    (hwsi : s.wsi = true) (hopen : s.state = State.OPEN)
    (hinv : queuePayloadSum s.sendQueue ≤ s.queueBytes)
    (hqb : s.queueBytes < U64)
    (hms : s.messagesSent + s.sendQueue.length < U64)
    (hbs : s.bytesSent + queuePayloadSum s.sendQueue < U64) :
    ∃ k, k ≤ s.sendQueue.length ∧
      serviceLoopDrain writeResult s
        = ({ s with sendQueue := s.sendQueue.drop k,
                    queueBytes := s.queueBytes - queuePayloadSum (s.sendQueue.take k),
                    messagesSent := s.messagesSent + k,
                    bytesSent := s.bytesSent + queuePayloadSum (s.sendQueue.take k) },
           s.sendQueue.take k) ∧
      (∀ i (hi : i < (s.sendQueue.take k).length),
        writeResult i = (((s.sendQueue.take k).get ⟨i, hi⟩).data.length : Int)) ∧
      (∀ m q', s.sendQueue.drop k = m :: q' → k < MAX_BATCH_SIZE →
        queuePayloadSum (s.sendQueue.take k) < MAX_BATCH_BYTES →
        writeResult k ≠ (m.data.length : Int)) := by
  obtain ⟨k, hk, heq, hrep, hstop⟩ :=
    drainGo_spec writeResult s.sendQueue s.queueBytes s.messagesSent s.bytesSent
      0 0 hinv hqb hms hbs
  refine ⟨k, hk, ?_, ?_, ?_⟩
  · unfold serviceLoopDrain
    rw [if_pos ⟨by rw [hwsi], hopen⟩, heq]
  · intro i hi
    have h := hrep i hi
    rw [Nat.zero_add] at h
    exact h
  · intro m q' hd hbc hbb
    have h := hstop m q' hd (by omega) (by omega)
    rw [Nat.zero_add] at h
    exact h

/-- C3 witness: on an OPEN connection whose queue holds a 1-byte and then a
2-byte message (counter 3), a drain whose transport reports a complete
1-byte write and then a short write pops exactly the first message. -/
theorem serviceLoopDrain_fifo_complete_write_witness :
    ∃ k, k ≤ twoQueuedState.sendQueue.length ∧
      serviceLoopDrain (fun i => if i = 0 then 1 else 99) twoQueuedState
        = ({ twoQueuedState with
              sendQueue := twoQueuedState.sendQueue.drop k,
              queueBytes := twoQueuedState.queueBytes
                - queuePayloadSum (twoQueuedState.sendQueue.take k),
              messagesSent := twoQueuedState.messagesSent + k,
              bytesSent := twoQueuedState.bytesSent
                + queuePayloadSum (twoQueuedState.sendQueue.take k) },
           twoQueuedState.sendQueue.take k) ∧
      (∀ i (hi : i < (twoQueuedState.sendQueue.take k).length),
        (fun i => if i = 0 then (1 : Int) else 99) i
          = (((twoQueuedState.sendQueue.take k).get ⟨i, hi⟩).data.length : Int)) ∧
      (∀ m q', twoQueuedState.sendQueue.drop k = m :: q' → k < MAX_BATCH_SIZE →
        queuePayloadSum (twoQueuedState.sendQueue.take k) < MAX_BATCH_BYTES →
        (fun i => if i = 0 then (1 : Int) else 99) k ≠ (m.data.length : Int)) :=
  serviceLoopDrain_fifo_complete_write (fun i => if i = 0 then 1 else 99)
    twoQueuedState rfl rfl (by decide) (by decide) (by decide) (by decide)

-- C9: buffer pool round-trip

lemma findFit_capacity :
    ∀ (pool : List PoolBuffer) (size : Nat) (b : PoolBuffer) (rest : List PoolBuffer),
      findFit pool size = some (b, rest) → size ≤ b.capacity := by
  intro pool
  induction pool with
  | nil => intro size b rest h; simp [findFit] at h
  | cons hd tl ih =>
    intro size b rest h
    by_cases hc : size ≤ hd.capacity
    · simp [findFit, hc] at h
      rw [← h.1]
      exact hc
    · simp [findFit, hc] at h
      cases hf : findFit tl size with
      | none => rw [hf] at h; simp at h
      | some p =>
        rw [hf] at h
        simp at h
        exact h.1 ▸ ih size p.1 p.2 (by rw [hf])

lemma findFit_of_mem :
    ∀ (pool : List PoolBuffer) (size : Nat), (∃ b ∈ pool, size ≤ b.capacity) →
      ∃ b rest, findFit pool size = some (b, rest) := by
  intro pool
  induction pool with
  | nil => intro size h; simp at h
  | cons hd tl ih =>
    intro size h
    by_cases hc : size ≤ hd.capacity
    · exact ⟨hd, tl, by simp [findFit, hc]⟩
    · have htl : ∃ b ∈ tl, size ≤ b.capacity := by
        rcases h with ⟨b, hm, hb⟩
        rcases List.mem_cons.mp hm with h1 | h2
        · exact absurd (h1 ▸ hb) hc
        · exact ⟨b, h2, hb⟩
      rcases ih size htl with ⟨b, rest, hf⟩
      exact ⟨b, hd :: rest, by simp [findFit, hc, hf]⟩

lemma getBuffer_findFit_some (pool : List PoolBuffer) (size : Nat)
    (b : PoolBuffer) (rest : List PoolBuffer)
    (hf : findFit pool size = some (b, rest)) :
    getBuffer pool size = ⟨⟨b.capacity, size⟩, rest, false⟩ := by
  unfold getBuffer
  rw [hf]

/-- Whatever `getBuffer` hands out has capacity at least the requested
size. -/
lemma getBuffer_capacity (pool : List PoolBuffer) (size : Nat) :
    size ≤ (getBuffer pool size).buffer.capacity := by
  unfold getBuffer
  cases hf : findFit pool size with
  | none => exact Nat.le_max_left size BUFFER_SIZE
  | some p =>
    simpa using findFit_capacity pool size p.1 p.2 (by rw [hf])

/-- C9. Round-trip reuse: `acquire(size)` then `release(buffer)` then
`acquire(size)` again returns a buffer whose capacity is ≥ `size` without a
new allocation, as long as the pool has not exceeded its capacity of
`MAX_POOLED_BUFFERS` when the buffer is released. -/
theorem bufferPool_acquire_release_acquire_reuses
    (pool : List PoolBuffer) (size : Nat)
    (hroom : (getBuffer pool size).pool.length < MAX_POOLED_BUFFERS) :
    (getBuffer (returnBuffer (getBuffer pool size).pool
        (getBuffer pool size).buffer) size).allocated = false ∧
    size ≤ (getBuffer (returnBuffer (getBuffer pool size).pool
        (getBuffer pool size).buffer) size).buffer.capacity := by
  have hcap : size ≤ (getBuffer pool size).buffer.capacity :=
    getBuffer_capacity pool size
  have hret : returnBuffer (getBuffer pool size).pool (getBuffer pool size).buffer
      = (getBuffer pool size).pool ++ [⟨(getBuffer pool size).buffer.capacity, 0⟩] := by
    simp [returnBuffer, hroom]
  have hmem : ∃ b ∈ returnBuffer (getBuffer pool size).pool
      (getBuffer pool size).buffer, size ≤ b.capacity := by
    rw [hret]
    exact ⟨⟨(getBuffer pool size).buffer.capacity, 0⟩, by simp, hcap⟩
  rcases findFit_of_mem _ size hmem with ⟨b, rest, hf⟩
  rw [getBuffer_findFit_some _ size b rest hf]
  exact ⟨rfl, findFit_capacity _ size b rest hf⟩

/-- C9 witness: starting from an empty pool, acquiring 100 bytes, releasing
the buffer, and acquiring 100 bytes again is a pool hit (no allocation)
with sufficient capacity. -/
theorem bufferPool_acquire_release_acquire_reuses_witness :
    (getBuffer ([] : List PoolBuffer) 100).pool.length < MAX_POOLED_BUFFERS ∧
    ((getBuffer (returnBuffer (getBuffer ([] : List PoolBuffer) 100).pool
        (getBuffer ([] : List PoolBuffer) 100).buffer) 100).allocated = false ∧
     100 ≤ (getBuffer (returnBuffer (getBuffer ([] : List PoolBuffer) 100).pool
        (getBuffer ([] : List PoolBuffer) 100).buffer) 100).buffer.capacity) :=
  ⟨by decide, bufferPool_acquire_release_acquire_reuses [] 100 (by decide)⟩

end RealTimeNitro
